import Mathlib

/-!
Verification of the Adaptive Streaming Response Renderer of the
chatgpt-telegram-bot repository.

The embedding below translates, from the Python source:
  - `bot/utils.py`: `split_into_chunks`, `get_stream_cutoff_values`,
    `is_direct_result`, `handle_direct_result`,
    `add_chat_request_to_usage_tracker`, `edit_message_with_retry`;
  - `bot/telegram_bot.py`: the streaming branch of `ChatGPTTelegramBot.prompt`
    (the `async for content, tokens, image_used in stream_response` loop).

Python strings are modelled as `List Char`; the Telegram transport is
modelled as a deterministic oracle (`Transport`) that decides, per call,
whether a send/edit/delete raises, together with a store (`World`) holding
the text of every message sent so far.  Every externally observable action
of the loop is recorded in a trace of `Op` values.
-/

/-- Recursion core of the chunk splitter.  The fuel argument only bounds the
number of chunks (it is instantiated with the text length, which always
suffices); it makes the recursion structural so that concrete runs reduce. -/
def splitChunksGo (k : Nat) : Nat → List Char → List (List Char)
| 0, _ => []
| fuel + 1, cs =>
  if cs = [] ∨ k = 0 then []
  else cs.take k :: splitChunksGo k fuel (cs.drop k)

/-- Model of `split_into_chunks` from `bot/utils.py`:
`[text[i: i + chunk_size] for i in range(0, len(text), chunk_size)]`.
The Python string is modelled as a `List Char`. -/
def splitChunksList (cs : List Char) (k : Nat) : List (List Char) :=
  splitChunksGo k cs.length cs

theorem splitChunksGo_nil (k fuel : Nat) : splitChunksGo k fuel [] = [] := by
  cases fuel <;> simp [splitChunksGo]

theorem splitChunksGo_stable (k : Nat) (hk : k ≠ 0) :
    ∀ (f1 f2 : Nat) (cs : List Char), cs.length ≤ f1 → cs.length ≤ f2 →
      splitChunksGo k f1 cs = splitChunksGo k f2 cs := by
  intro f1
  induction f1 with
  | zero =>
    intro f2 cs h1 h2
    have hnil : cs = [] := List.eq_nil_of_length_eq_zero (Nat.le_zero.mp h1)
    subst hnil
    rw [splitChunksGo_nil, splitChunksGo_nil]
  | succ f1 ih =>
    intro f2 cs h1 h2
    by_cases hcs : cs = []
    · subst hcs
      rw [splitChunksGo_nil, splitChunksGo_nil]
    · have hpos : 0 < cs.length := List.length_pos.mpr hcs
      cases f2 with
      | zero => omega
      | succ f2 =>
        simp only [splitChunksGo, hcs, hk, or_self, if_neg, false_or, if_false]
        have hd1 : (cs.drop k).length ≤ f1 := by
          simp only [List.length_drop]
          omega
        have hd2 : (cs.drop k).length ≤ f2 := by
          simp only [List.length_drop]
          omega
        rw [ih f2 (cs.drop k) hd1 hd2]

theorem splitChunksList_nil (k : Nat) : splitChunksList [] k = [] := by
  simp [splitChunksList, splitChunksGo_nil]

theorem splitChunksList_cons (cs : List Char) (k : Nat) (h1 : cs ≠ []) (h2 : k ≠ 0) :
    splitChunksList cs k = cs.take k :: splitChunksList (cs.drop k) k := by
  unfold splitChunksList
  have hpos : 0 < cs.length := List.length_pos.mpr h1
  cases hl : cs.length with
  | zero => omega
  | succ n =>
    simp only [splitChunksGo, h1, h2, or_self, false_or, if_false]
    have hd1 : (cs.drop k).length ≤ n := by
      simp only [List.length_drop]
      omega
    rw [splitChunksGo_stable k h2 n (cs.drop k).length (cs.drop k) hd1 (Nat.le_refl _)]

theorem splitChunksList_ne_nil (cs : List Char) (k : Nat) (h1 : cs ≠ []) (h2 : k ≠ 0) :
    splitChunksList cs k ≠ [] := by
  rw [splitChunksList_cons cs k h1 h2]
  simp

theorem splitChunksList_join_aux (k : Nat) (hk : 0 < k) :
    ∀ (n : Nat) (cs : List Char), cs.length ≤ n → (splitChunksList cs k).flatten = cs := by
  intro n
  induction n with
  | zero =>
    intro cs h
    have hnil : cs = [] := List.eq_nil_of_length_eq_zero (Nat.le_zero.mp h)
    subst hnil
    rw [splitChunksList_nil]
    rfl
  | succ n ih =>
    intro cs h
    by_cases hcs : cs = []
    · subst hcs
      rw [splitChunksList_nil]
      rfl
    · rw [splitChunksList_cons cs k hcs (by omega)]
      have hlen : 0 < cs.length := List.length_pos.mpr hcs
      have hdrop : (cs.drop k).length ≤ n := by
        simp only [List.length_drop]
        omega
      rw [List.flatten_cons, ih (cs.drop k) hdrop]
      exact List.take_append_drop k cs

theorem splitChunksList_join (cs : List Char) (k : Nat) (hk : 0 < k) :
    (splitChunksList cs k).flatten = cs :=
  splitChunksList_join_aux k hk cs.length cs (Nat.le_refl _)

theorem splitChunksList_dropLast_aux (k : Nat) (hk : 0 < k) :
    ∀ (n : Nat) (cs : List Char), cs.length ≤ n →
      ∀ c ∈ (splitChunksList cs k).dropLast, c.length = k := by
  intro n
  induction n with
  | zero =>
    intro cs h
    have hnil : cs = [] := List.eq_nil_of_length_eq_zero (Nat.le_zero.mp h)
    subst hnil
    rw [splitChunksList_nil]
    intro c hc
    simp at hc
  | succ n ih =>
    intro cs h
    by_cases hcs : cs = []
    · subst hcs
      rw [splitChunksList_nil]
      intro c hc
      simp at hc
    · rw [splitChunksList_cons cs k hcs (by omega)]
      by_cases hrest : cs.drop k = []
      · rw [hrest, splitChunksList_nil]
        intro c hc
        simp at hc
      · have hne := splitChunksList_ne_nil (cs.drop k) k hrest (by omega)
        rw [List.dropLast_cons_of_ne_nil hne]
        intro c hc
        rcases List.mem_cons.mp hc with hc | hc
        · subst hc
          have hklen : k ≤ cs.length := by
            by_contra hlt
            exact hrest (List.drop_eq_nil_iff.mpr (by omega))
          simp [List.length_take]
          omega
        · have hdrop : (cs.drop k).length ≤ n := by
            have hlen : 0 < cs.length := List.length_pos.mpr hcs
            simp only [List.length_drop]
            omega
          exact ih (cs.drop k) hdrop c hc

/-- Claim C1: for every string `C` and chunk size `k > 0`, the chunks produced
by `split_into_chunks` concatenate back to exactly `C`, every chunk except the
last has length exactly `k`, and the empty string yields the empty list. -/
theorem c1_chunk_splitter (cs : List Char) (k : Nat) (hk : 0 < k) :
    (splitChunksList cs k).flatten = cs
    ∧ (∀ c ∈ (splitChunksList cs k).dropLast, c.length = k)
    ∧ (cs = [] → splitChunksList cs k = []) := by
  refine ⟨splitChunksList_join cs k hk,
    splitChunksList_dropLast_aux k hk cs.length cs (Nat.le_refl _), ?_⟩
  intro h
  subst h
  exact splitChunksList_nil k

/-- Concrete instance of C1 with chunk size 4 on an 11-character string. -/
theorem c1_chunk_splitter_witness :
    (splitChunksList (String.toList "hello world") 4).flatten = String.toList "hello world"
    ∧ (∀ c ∈ (splitChunksList (String.toList "hello world") 4).dropLast, c.length = 4) :=
  ⟨(c1_chunk_splitter (String.toList "hello world") 4 (by decide)).1,
   (c1_chunk_splitter (String.toList "hello world") 4 (by decide)).2.1⟩

/-- Model of `get_stream_cutoff_values` from `bot/utils.py`.  The first argument of the
Python function is the Telegram update, used only through `is_group_chat`;
here that check is passed in as a boolean. -/
def get_stream_cutoff_values (isGroupChat : Bool) (content : List Char) : Nat :=
  match isGroupChat with
  | true =>
    if 1000 < content.length then 180
    else if 200 < content.length then 120
    else if 50 < content.length then 90
    else 50
  | false =>
    if 1000 < content.length then 90
    else if 200 < content.length then 45
    else if 50 < content.length then 25
    else 15

/-- The four content-length tiers of `get_stream_cutoff_values`
(boundaries at 50, 200 and 1000 characters). -/
def lengthBucket (n : Nat) : Nat :=
  if 1000 < n then 3 else if 200 < n then 2 else if 50 < n then 1 else 0

/-- Claim C4: the cadence threshold has exactly four buckets by content length
(boundaries `> 1000`, `> 200`, `> 50`, else): it is constant inside each bucket
and takes distinct values across buckets; for fixed `isGroupChat` it is
non-decreasing in the content length; and for every content length the
group-chat threshold is strictly greater than the direct-chat threshold. -/
theorem c4_cadence_thresholds (g : Bool) (c1 c2 : List Char) :
    (c1.length ≤ c2.length →
      get_stream_cutoff_values g c1 ≤ get_stream_cutoff_values g c2)
    ∧ get_stream_cutoff_values false c1 < get_stream_cutoff_values true c1
    ∧ (lengthBucket c1.length = lengthBucket c2.length →
      get_stream_cutoff_values g c1 = get_stream_cutoff_values g c2)
    ∧ (lengthBucket c1.length ≠ lengthBucket c2.length →
      get_stream_cutoff_values g c1 ≠ get_stream_cutoff_values g c2) := by
  refine ⟨?_, ?_, ?_, ?_⟩
  · intro h
    rcases g <;> simp only [get_stream_cutoff_values] <;> split_ifs <;> omega
  · simp only [get_stream_cutoff_values]
    split_ifs <;> omega
  · intro h
    simp only [lengthBucket] at h
    rcases g <;> simp only [get_stream_cutoff_values] <;> split_ifs at h ⊢ <;> omega
  · intro h
    simp only [lengthBucket] at h
    rcases g <;> simp only [get_stream_cutoff_values] <;> split_ifs at h ⊢ <;> omega

/-- Concrete instance of C4 at lengths 60 and 300. -/
theorem c4_cadence_thresholds_witness :
    get_stream_cutoff_values true (List.replicate 60 'a')
      ≤ get_stream_cutoff_values true (List.replicate 300 'a')
    ∧ get_stream_cutoff_values false (List.replicate 60 'a')
      < get_stream_cutoff_values true (List.replicate 60 'a')
    ∧ get_stream_cutoff_values true (List.replicate 60 'a')
      ≠ get_stream_cutoff_values true (List.replicate 300 'a') :=
  ⟨(c4_cadence_thresholds true (List.replicate 60 'a') (List.replicate 300 'a')).1
      (by simp only [List.length_replicate]; omega),
   (c4_cadence_thresholds true (List.replicate 60 'a') (List.replicate 300 'a')).2.1,
   (c4_cadence_thresholds true (List.replicate 60 'a') (List.replicate 300 'a')).2.2.2
      (by simp only [List.length_replicate]; decide)⟩

/-- The `tokens` component of a stream item.  The Python generator yields the
string `"not_finished"` until the final item, which carries the token count. -/
inductive Tokens
| notFinished
| finished (n : Nat)
deriving DecidableEq

/-- The `content` component of a stream item: either cumulative text, or a
direct-result payload (in Python, a dict or JSON string whose `direct_result`
key is truthy, carrying `kind`, `format` and `value` fields). -/
inductive ContentVal
| text (s : List Char)
| direct (kind fmt value : List Char)
deriving DecidableEq

/-- Model of `is_direct_result` from `bot/utils.py`: true exactly when the payload is a
dict (or JSON string) with a truthy `direct_result` key.  Plain cumulative
text from the model stream does not parse as such a payload. -/
def is_direct_result : ContentVal → Bool
| ContentVal.text _ => false
| ContentVal.direct _ _ _ => true

/-- One item of the `async for content, tokens, image_used` stream. -/
structure StreamItem where
  content : ContentVal
  tokens : Tokens
  imageUsed : Bool
deriving DecidableEq

/-- Python `str.strip()` on the cumulative content (whitespace on both ends). -/
def stripChars (cs : List Char) : List Char :=
  ((cs.dropWhile Char.isWhitespace).reverse.dropWhile Char.isWhitespace).reverse

/-- Transport-level failure classes raised by the Telegram adapter, as caught
by the streaming loop of `ChatGPTTelegramBot.prompt`: `telegram.error.RetryAfter`
(with its `retry_after` seconds), `telegram.error.TimedOut`, and any other
exception. -/
inductive TransportErr
| rateLimited (retryAfter : Nat)
| timedOut
| other
deriving DecidableEq

/-- Deterministic oracle for the Telegram transport: which failure (if any) the
n-th send / edit / delete call raises.  Counters index calls in issue order. -/
structure Transport where
  sendFail : Nat → Bool
  editFail : Nat → Option TransportErr
  deleteFail : Nat → Bool

/-- The state of the chat as the transport sees it: the text of every message
sent so far (message ids are indices), ids of deleted messages, and call
counters used to drive the `Transport` oracle. -/
structure World where
  messages : List (List Char)
  deleted : List Nat
  sendCount : Nat
  editCount : Nat
  deleteCount : Nat
deriving DecidableEq

/-- Result of one `edit_message_with_retry` call as observed by the loop:
`success` (message text replaced), `unmodified` (Telegram answered
"Message is not modified", absorbed by `edit_message_with_retry`), or a
raised failure. -/
inductive EditOutcome
| success
| unmodified
| failed (e : TransportErr)
deriving DecidableEq

def EditOutcome.isSuccess : EditOutcome → Bool
| EditOutcome.success => true
| _ => false

/-- Externally observable actions of the renderer, in issue order.  Send,
edit and delete ops record whether the transport call succeeded; `sleep` is
in milliseconds; `report` is a call to the usage tracker. -/
inductive Op
| sendMsg (text : List Char) (ok : Bool)
| editMsg (msgId : Nat) (text : List Char) (modified : Bool)
| deleteMsg (msgId : Nat) (ok : Bool)
| sleep (ms : Nat)
| sendPhoto (value : List Char)
| sendDocument (value : List Char)
| sendDice (value : List Char)
| cleanupFile (value : List Char)
| report (userId : List Char) (tokens : Nat)
deriving DecidableEq

/-- One `edit_message_with_retry` call.  If no failure is injected, editing a
message to its current text yields `unmodified` (Telegram's
"Message is not modified" `BadRequest`, absorbed inside
`edit_message_with_retry`); editing an unknown message id yields a
`BadRequest` that `edit_message_with_retry` re-raises, i.e. `other`. -/
def currentText (w : World) (m : Nat) : List Char := w.messages.getD m []

def doEdit (tr : Transport) (w : World) (m : Nat) (text : List Char) : World × EditOutcome :=
  let w1 : World := { w with editCount := w.editCount + 1 }
  match tr.editFail w.editCount with
  | some e => (w1, EditOutcome.failed e)
  | none =>
    if m < w.messages.length then
      if currentText w m = text then (w1, EditOutcome.unmodified)
      else ({ w1 with messages := w.messages.set m text }, EditOutcome.success)
    else (w1, EditOutcome.failed TransportErr.other)

/-- One `reply_text` call: on success the new message is appended and its id
(the index) returned. -/
def doSend (tr : Transport) (w : World) (text : List Char) : World × Option Nat :=
  if tr.sendFail w.sendCount then ({ w with sendCount := w.sendCount + 1 }, none)
  else ({ w with sendCount := w.sendCount + 1, messages := w.messages ++ [text] },
        some w.messages.length)

/-- One `delete_message` call. -/
def doDelete (tr : Transport) (w : World) (m : Nat) : World × Bool :=
  if tr.deleteFail w.deleteCount then ({ w with deleteCount := w.deleteCount + 1 }, false)
  else ({ w with deleteCount := w.deleteCount + 1, deleted := m :: w.deleted }, true)

/-- The local variables of the streaming loop in `ChatGPTTelegramBot.prompt`:
`i`, `prev`, `sent_message` (by id), `backoff`, `stream_chunk`,
`total_tokens` and `is_image`. -/
structure LoopState where
  i : Nat
  prev : List Char
  sentMessage : Option Nat
  backoff : Nat
  streamChunk : Nat
  totalTokens : Nat
  isImage : Bool
deriving DecidableEq

/-- Result of one full `prompt` stream: either a direct result was handed to
the transport adapter (the early `return`), or the loop finished normally. -/
inductive Outcome
| directResultHandled (kind fmt value : List Char)
| rendered (totalTokens : Nat)
deriving DecidableEq

/-- Configuration surrounding the loop: the chunk size used by
`split_into_chunks` (4096 in the source), the group-chat flag, and the
user/allow-list data consumed by `add_chat_request_to_usage_tracker`. -/
structure Config where
  chunkSize : Nat
  isGroup : Bool
  allowedUserIds : List (List Char)
  guestsExists : Bool
  userId : List Char

def kindPhoto : List Char := ['p', 'h', 'o', 't', 'o']
def kindGif : List Char := ['g', 'i', 'f']
def kindFile : List Char := ['f', 'i', 'l', 'e']
def kindDice : List Char := ['d', 'i', 'c', 'e']
def fmtUrl : List Char := ['u', 'r', 'l']
def fmtPath : List Char := ['p', 'a', 't', 'h']
def guestsId : List Char := ['g', 'u', 'e', 's', 't', 's']

/-- Model of `handle_direct_result` from `bot/utils.py`: dispatch on `kind` and
`format`, then `cleanup_intermediate_files` when `format = path`.  Note that
in the `gif`/`file` branch the source checks `url` and `path` with two
separate `if` statements, not `elif`. -/
def handle_direct_result (kind fmt value : List Char) : List Op :=
  (if kind = kindPhoto then
    (if fmt = fmtUrl then [Op.sendPhoto value]
     else if fmt = fmtPath then [Op.sendPhoto value]
     else [])
   else if kind = kindGif ∨ kind = kindFile then
    (if fmt = fmtUrl then [Op.sendDocument value] else [])
      ++ (if fmt = fmtPath then [Op.sendDocument value] else [])
   else if kind = kindDice then [Op.sendDice value]
   else [])
  ++ (if fmt = fmtPath then [Op.cleanupFile value] else [])

/-- The update `total_tokens = float(tokens)` at the end of the loop body, executed when
`tokens != "not_finished"`. -/
def updTokens (item : StreamItem) (st : LoopState) : LoopState :=
  match item.tokens with
  | Tokens.finished n => { st with totalTokens := n }
  | Tokens.notFinished => st

/-- The fall-through end of the loop body: `i += 1` followed by the
`total_tokens` update. -/
def finishItem (item : StreamItem) (st : LoopState) (w : World) (ops : List Op) :
    LoopState × World × List Op × Option Outcome :=
  (updTokens item { st with i := st.i + 1 }, w, ops, none)

/-- The overflow branch of the loop body (`len(stream_chunks) > 1` and
`stream_chunk != len(stream_chunks) - 1`): increment `stream_chunk`, try to
edit the current message to the now-complete chunk (`stream_chunks[-2]`,
failure swallowed by `except: pass`; when `sent_message` is `None` the
attribute access raises before the edit call is issued), then try to send a
new message with the remaining chunk (failure swallowed), and `continue`. -/
def overflowStep (tr : Transport) (content prevChunk : List Char) (st : LoopState)
    (w : World) : LoopState × World × List Op × Option Outcome :=
  let st1 : LoopState := { st with streamChunk := st.streamChunk + 1 }
  let sendText := if 0 < content.length then content else ['.', '.', '.']
  match st1.sentMessage with
  | none =>
    let r := doSend tr w sendText
    (match r.2 with
      | some id => { st1 with sentMessage := some id }
      | none => st1,
     r.1, [Op.sendMsg sendText r.2.isSome], none)
  | some m =>
    let e := doEdit tr w m prevChunk
    let r := doSend tr e.1 sendText
    (match r.2 with
      | some id => { st1 with sentMessage := some id }
      | none => st1,
     r.1, [Op.editMsg m prevChunk e.2.isSuccess, Op.sendMsg sendText r.2.isSome], none)

/-- The `i == 0` branch of the loop body: inside one `try`, delete the
previous placeholder if any, then send the content as a new message; any
exception leads to `continue` (so a failed initial send is silently skipped
and the next item again takes the `i == 0` path). -/
def firstSendStep (tr : Transport) (item : StreamItem) (content : List Char)
    (st : LoopState) (w : World) : LoopState × World × List Op × Option Outcome :=
  match st.sentMessage with
  | some m =>
    let d := doDelete tr w m
    if d.2 then
      let r := doSend tr d.1 content
      match r.2 with
      | some id =>
        finishItem item { st with sentMessage := some id } r.1
          [Op.deleteMsg m true, Op.sendMsg content true]
      | none => (st, r.1, [Op.deleteMsg m true, Op.sendMsg content false], none)
    else (st, d.1, [Op.deleteMsg m false], none)
  | none =>
    let r := doSend tr w content
    match r.2 with
    | some id =>
      finishItem item { st with sentMessage := some id } r.1 [Op.sendMsg content true]
    | none => (st, r.1, [Op.sendMsg content false], none)

/-- The cadence branch of the loop body (`i != 0`): compute
`cutoff = get_stream_cutoff_values(update, content) + backoff`; when
`abs(len(content) - len(prev)) > cutoff or tokens != "not_finished"`, set
`prev = content` and attempt `edit_message_with_retry`; on `RetryAfter`
sleep `retry_after` seconds and `continue`, on `TimedOut` sleep 0.5 s and
`continue`, on any other exception `continue` (each adding 5 to `backoff`);
on success sleep 0.01 s and fall through to `i += 1`. -/
def cadenceStep (cfg : Config) (tr : Transport) (item : StreamItem) (content : List Char)
    (st : LoopState) (w : World) : LoopState × World × List Op × Option Outcome :=
  if get_stream_cutoff_values cfg.isGroup content + st.backoff
      < ((content.length : Int) - (st.prev.length : Int)).natAbs
      ∨ item.tokens ≠ Tokens.notFinished then
    let st1 : LoopState := { st with prev := content }
    match st1.sentMessage with
    | none => ({ st1 with backoff := st1.backoff + 5 }, w, [], none)
    | some m =>
      let e := doEdit tr w m content
      match e.2 with
      | EditOutcome.failed (TransportErr.rateLimited r) =>
        ({ st1 with backoff := st1.backoff + 5 }, e.1,
         [Op.editMsg m content false, Op.sleep (r * 1000)], none)
      | EditOutcome.failed TransportErr.timedOut =>
        ({ st1 with backoff := st1.backoff + 5 }, e.1,
         [Op.editMsg m content false, Op.sleep 500], none)
      | EditOutcome.failed TransportErr.other =>
        ({ st1 with backoff := st1.backoff + 5 }, e.1, [Op.editMsg m content false], none)
      | EditOutcome.unmodified =>
        finishItem item st1 e.1 [Op.editMsg m content false, Op.sleep 10]
      | EditOutcome.success =>
        finishItem item st1 e.1 [Op.editMsg m content true, Op.sleep 10]
  else finishItem item st w []

/-- One iteration of the `async for` loop body of `ChatGPTTelegramBot.prompt`
(streaming branch), returning the updated loop state, the updated chat world,
the trace of issued operations, and `some o` when the body executed `return`
(direct result). -/
def processItem (cfg : Config) (tr : Transport) (item : StreamItem) (st : LoopState)
    (w : World) : LoopState × World × List Op × Option Outcome :=
  let st1 : LoopState := { st with isImage := st.isImage || item.imageUsed }
  match item.content with
  | ContentVal.direct kind fmt value =>
    (st1, w, handle_direct_result kind fmt value,
     some (Outcome.directResultHandled kind fmt value))
  | ContentVal.text c =>
    if (stripChars c).length = 0 then (st1, w, [], none)
    else
      let chunks := splitChunksList c cfg.chunkSize
      let content := chunks.getLastD []
      if 1 < chunks.length ∧ st1.streamChunk ≠ chunks.length - 1 then
        overflowStep tr content (chunks.getD (chunks.length - 2) []) st1 w
      else if st1.i = 0 then firstSendStep tr item content st1 w
      else cadenceStep cfg tr item content st1 w

/-- The whole `async for` loop: process items in order until exhaustion or an
early `return`.  The returned trace is the concatenation of the per-item
traces. -/
def runItems (cfg : Config) (tr : Transport) :
    List StreamItem → LoopState → World → LoopState × World × List Op × Option Outcome
| [], st, w => (st, w, [], none)
| item :: rest, st, w =>
  match processItem cfg tr item st w with
  | (st1, w1, ops1, some o) => (st1, w1, ops1, some o)
  | (st1, w1, ops1, none) =>
    let r := runItems cfg tr rest st1 w1
    (r.1, r.2.1, ops1 ++ r.2.2.1, r.2.2.2)

/-- Model of `add_chat_request_to_usage_tracker` from `bot/utils.py`, abstracted to the
list of `add_chat_tokens` calls (ledger key, token count) it makes: nothing
when `int(used_tokens) == 0`; otherwise one call for the user, plus one for
the shared `"guests"` tracker when the user id is not in
`config.allowed_user_ids` and a guest tracker exists. -/
def add_chat_request_to_usage_tracker (allowedUserIds : List (List Char))
    (guestsExists : Bool) (userId : List Char) (usedTokens : Nat) :
    List (List Char × Nat) :=
  if usedTokens = 0 then []
  else if userId ∈ allowedUserIds then [(userId, usedTokens)]
  else if guestsExists then [(userId, usedTokens), (guestsId, usedTokens)]
  else [(userId, usedTokens)]

def initialState : LoopState :=
  { i := 0, prev := [], sentMessage := none, backoff := 0, streamChunk := 0,
    totalTokens := 0, isImage := false }

def initialWorld : World :=
  { messages := [], deleted := [], sendCount := 0, editCount := 0, deleteCount := 0 }

/-- The streaming branch of `ChatGPTTelegramBot.prompt` end to end: run the
loop from the initial local variables, then — unless a direct result caused an
early return — call `add_chat_request_to_usage_tracker` once with the final
`total_tokens`. -/
def runStream (cfg : Config) (tr : Transport) (items : List StreamItem) :
    World × List Op × Outcome :=
  match runItems cfg tr items initialState initialWorld with
  | (_, w, ops, some o) => (w, ops, o)
  | (st, w, ops, none) =>
    let reports := add_chat_request_to_usage_tracker cfg.allowedUserIds
      cfg.guestsExists cfg.userId st.totalTokens
    (w, ops ++ reports.map (fun r => Op.report r.1 r.2), Outcome.rendered st.totalTokens)

def Op.isEditOp : Op → Bool
| Op.editMsg _ _ _ => true
| _ => false

def Op.isModifyingEdit : Op → Bool
| Op.editMsg _ _ modified => modified
| _ => false

def Op.isReportOp : Op → Bool
| Op.report _ _ => true
| _ => false

def Op.editWithText (t : List Char) : Op → Bool
| Op.editMsg _ text _ => text = t
| _ => false

def editCount (l : List Op) : Nat := (l.filter Op.isEditOp).length

def modifyingEditCount (l : List Op) : Nat := (l.filter Op.isModifyingEdit).length

def reportOps (l : List Op) : List Op := l.filter Op.isReportOp

/-- The update `is_image = True if image_used` at the top of the loop body. -/
def imgUpd (g : Bool) (st : LoopState) : LoopState := { st with isImage := st.isImage || g }

theorem stripChars_nil : stripChars [] = [] := rfl

theorem splitChunksList_single (c : List Char) (k : Nat) (hk : 0 < k) (hc : c ≠ [])
    (hlen : c.length ≤ k) : splitChunksList c k = [c] := by
  rw [splitChunksList_cons c k hc (by omega)]
  rw [List.take_of_length_le hlen, List.drop_eq_nil_iff.mpr hlen, splitChunksList_nil]

theorem splitChunksList_two (c : List Char) (k : Nat) (h1 : k < c.length)
    (h2 : c.length ≤ 2 * k) : splitChunksList c k = [c.take k, c.drop k] := by
  have hc : c ≠ [] := by
    intro h
    rw [h] at h1
    simp at h1
  have hk : 0 < k := by omega
  rw [splitChunksList_cons c k hc (by omega)]
  have hdrop : (c.drop k).length ≤ k := by
    simp only [List.length_drop]
    omega
  have hdropne : c.drop k ≠ [] := by
    intro h
    have := List.drop_eq_nil_iff.mp h
    omega
  rw [splitChunksList_single (c.drop k) k hk hdropne hdrop]

theorem updTokens_i (item : StreamItem) (st : LoopState) :
    (updTokens item st).i = st.i := by
  unfold updTokens
  cases item.tokens <;> rfl

theorem updTokens_prev (item : StreamItem) (st : LoopState) :
    (updTokens item st).prev = st.prev := by
  unfold updTokens
  cases item.tokens <;> rfl

theorem updTokens_sentMessage (item : StreamItem) (st : LoopState) :
    (updTokens item st).sentMessage = st.sentMessage := by
  unfold updTokens
  cases item.tokens <;> rfl

theorem updTokens_backoff (item : StreamItem) (st : LoopState) :
    (updTokens item st).backoff = st.backoff := by
  unfold updTokens
  cases item.tokens <;> rfl

theorem updTokens_streamChunk (item : StreamItem) (st : LoopState) :
    (updTokens item st).streamChunk = st.streamChunk := by
  unfold updTokens
  cases item.tokens <;> rfl

/-- Dispatch of a non-empty single-chunk text item to the initial-send branch
(`i == 0`) or the cadence branch. -/
theorem processItem_single_dispatch (cfg : Config) (tr : Transport) (c : List Char)
    (tok : Tokens) (g : Bool) (st : LoopState) (w : World)
    (hws : (stripChars c).length ≠ 0) (hk : 0 < cfg.chunkSize)
    (hlen : c.length ≤ cfg.chunkSize) :
    processItem cfg tr ⟨ContentVal.text c, tok, g⟩ st w =
      if st.i = 0 then firstSendStep tr ⟨ContentVal.text c, tok, g⟩ c (imgUpd g st) w
      else cadenceStep cfg tr ⟨ContentVal.text c, tok, g⟩ c (imgUpd g st) w := by
  have hc : c ≠ [] := by
    intro h
    apply hws
    rw [h, stripChars_nil]
    rfl
  have hone := splitChunksList_single c cfg.chunkSize hk hc hlen
  unfold processItem imgUpd
  simp [hws, hone]

/-- An all-success transport: no call ever raises. -/
def trOk : Transport :=
  { sendFail := fun _ => false, editFail := fun _ => none, deleteFail := fun _ => false }

/-- Claim C10: a stream item whose content is empty or whitespace-only is
skipped by `if len(content.strip()) == 0: continue`: no send, edit or delete
is performed, the world is untouched, and every loop variable except the
`is_image` flag (`prev`, `sent_message`, `backoff`, `i`, `stream_chunk`,
`total_tokens`) keeps its value. -/
theorem c10_whitespace_frame (cfg : Config) (tr : Transport) (c : List Char)
    (tok : Tokens) (g : Bool) (st : LoopState) (w : World)
    (hws : (stripChars c).length = 0) :
    processItem cfg tr ⟨ContentVal.text c, tok, g⟩ st w = (imgUpd g st, w, [], none)
    ∧ (imgUpd g st).prev = st.prev
    ∧ (imgUpd g st).sentMessage = st.sentMessage
    ∧ (imgUpd g st).backoff = st.backoff
    ∧ (imgUpd g st).i = st.i
    ∧ (imgUpd g st).streamChunk = st.streamChunk
    ∧ (imgUpd g st).totalTokens = st.totalTokens := by
  refine ⟨?_, rfl, rfl, rfl, rfl, rfl, rfl⟩
  unfold processItem imgUpd
  simp [hws]

/-- A direct-chat configuration with the standard 4096 chunk size, an empty
allow list and no guest tracker, for concrete instances. -/
def cfgPlain : Config :=
  { chunkSize := 4096, isGroup := false, allowedUserIds := [],
    guestsExists := false, userId := ['u'] }

/-- A mid-stream loop state used by concrete instances. -/
def stMid : LoopState :=
  { i := 3, prev := ['a', 'b'], sentMessage := some 0, backoff := 10,
    streamChunk := 0, totalTokens := 0, isImage := false }

/-- A world with one message, used by concrete instances. -/
def wMid : World :=
  { messages := [['a', 'b']], deleted := [], sendCount := 1, editCount := 2,
    deleteCount := 0 }

/-- Concrete instance of C10: a whitespace-only `Finished` item leaves a
mid-stream state untouched and issues no operation. -/
theorem c10_whitespace_frame_witness :
    processItem cfgPlain trOk ⟨ContentVal.text [' ', ' '], Tokens.finished 5, false⟩
        stMid wMid
      = (imgUpd false stMid, wMid, [], none) :=
  (c10_whitespace_frame cfgPlain trOk [' ', ' '] (Tokens.finished 5) false stMid wMid
    (by decide)).1

theorem fmtUrl_ne_fmtPath : fmtUrl ≠ fmtPath := by decide

theorem handle_direct_result_photo_url (url : List Char) :
    handle_direct_result kindPhoto fmtUrl url = [Op.sendPhoto url] := by
  simp [handle_direct_result, fmtUrl_ne_fmtPath]

/-- Claim C7: when the first stream item is a direct result of kind `photo`
and format `url`, the driver sends and edits no text message, the transport
adapter receives exactly one photo-delivery call with that url, and the
outcome is `DirectResultHandled`. -/
theorem c7_direct_result_first (cfg : Config) (tr : Transport) (url : List Char)
    (tok : Tokens) (g : Bool) (rest : List StreamItem) :
    (runStream cfg tr (⟨ContentVal.direct kindPhoto fmtUrl url, tok, g⟩ :: rest)).2.1
        = [Op.sendPhoto url]
    ∧ (runStream cfg tr (⟨ContentVal.direct kindPhoto fmtUrl url, tok, g⟩ :: rest)).2.2
        = Outcome.directResultHandled kindPhoto fmtUrl url := by
  constructor <;>
    simp [runStream, runItems, processItem, handle_direct_result_photo_url]

/-- Claim C2: when the cumulative content crosses the chunk boundary while a
message is open (`stream_chunk` still 0 and the content now splits into two
chunks), the loop edits the open message to exactly the completed first chunk
and then sends a new message with exactly the remainder, in that order, and
the stream continues. -/
theorem c2_overflow_finalize (cfg : Config) (tr : Transport) (c : List Char)
    (tok : Tokens) (g : Bool) (st : LoopState) (w : World) (m : Nat)
    (hm : st.sentMessage = some m) (hsc : st.streamChunk = 0)
    (h1 : cfg.chunkSize < c.length) (h2 : c.length ≤ 2 * cfg.chunkSize)
    (hws : (stripChars c).length ≠ 0) :
    (processItem cfg tr ⟨ContentVal.text c, tok, g⟩ st w).2.2.1 =
      [Op.editMsg m (c.take cfg.chunkSize)
         (doEdit tr w m (c.take cfg.chunkSize)).2.isSuccess,
       Op.sendMsg (c.drop cfg.chunkSize)
         (doSend tr (doEdit tr w m (c.take cfg.chunkSize)).1
           (c.drop cfg.chunkSize)).2.isSome]
    ∧ (processItem cfg tr ⟨ContentVal.text c, tok, g⟩ st w).2.2.2 = none := by
  have htwo := splitChunksList_two c cfg.chunkSize h1 h2
  have hd : 0 < (c.drop cfg.chunkSize).length := by
    simp only [List.length_drop]
    omega
  unfold processItem overflowStep
  simp [hws, htwo, hsc, hm, hd]
  refine ⟨fun hle => absurd h1 (by omega), ?_⟩
  rw [if_pos h1]

/-- Chunk-size-10 configuration matching the worked example of the spec. -/
def cfg10 : Config :=
  { chunkSize := 10, isGroup := false, allowedUserIds := [['u']],
    guestsExists := false, userId := ['u'] }

/-- Loop state after the first example item `"12345678"` has been sent. -/
def stC2 : LoopState :=
  { i := 1, prev := [], sentMessage := some 0, backoff := 0, streamChunk := 0,
    totalTokens := 0, isImage := false }

/-- World after the first example item `"12345678"` has been sent. -/
def wC2 : World :=
  { messages := [String.toList "12345678"], deleted := [], sendCount := 1,
    editCount := 0, deleteCount := 0 }

/-- Concrete instance of C2, the spec's own example: limit 10, content grows
from `"12345678"` to `"1234567890AB"`; the open message is edited to
`"1234567890"` and a new message `"AB"` is sent. -/
theorem c2_overflow_finalize_witness :
    (processItem cfg10 trOk
        ⟨ContentVal.text (String.toList "1234567890AB"), Tokens.notFinished, false⟩
        stC2 wC2).2.2.1 =
      [Op.editMsg 0 (String.toList "1234567890") true,
       Op.sendMsg (String.toList "AB") true] := by
  have h := (c2_overflow_finalize cfg10 trOk (String.toList "1234567890AB")
    Tokens.notFinished false stC2 wC2 0 rfl rfl (by decide) (by decide) (by decide)).1
  rw [h]
  decide

/-- Claim C3 (amended): for items after the first that reach the cadence check
(non-whitespace content fitting in a single chunk, with an open message), an
edit is attempted iff the item is `Finished` or the absolute difference
between the candidate length and the length of `prev` (the content of the
most recent edit attempt, initially empty — the initial send does not update
it) exceeds the threshold plus the accumulated backoff; and the very first
item is always rendered as a send, regardless of delta. -/
theorem c3_cadence_gate (cfg : Config) (tr : Transport) (c : List Char)
    (tok : Tokens) (g : Bool) (st : LoopState) (w : World)
    (hws : (stripChars c).length ≠ 0) (hk : 0 < cfg.chunkSize)
    (hlen : c.length ≤ cfg.chunkSize) :
    (∀ m, st.i ≠ 0 → st.sentMessage = some m →
      editCount (processItem cfg tr ⟨ContentVal.text c, tok, g⟩ st w).2.2.1 =
        (if get_stream_cutoff_values cfg.isGroup c + st.backoff
              < ((c.length : Int) - (st.prev.length : Int)).natAbs
            ∨ tok ≠ Tokens.notFinished
         then 1 else 0))
    ∧ (st.i = 0 → st.sentMessage = none →
      (processItem cfg tr ⟨ContentVal.text c, tok, g⟩ st w).2.2.1 =
        [Op.sendMsg c (doSend tr w c).2.isSome]) := by
  constructor
  · intro m hi hm
    rw [processItem_single_dispatch cfg tr c tok g st w hws hk hlen]
    unfold imgUpd cadenceStep
    simp only [hi, if_neg]
    by_cases hcond : get_stream_cutoff_values cfg.isGroup c + st.backoff
        < ((c.length : Int) - (st.prev.length : Int)).natAbs
        ∨ tok ≠ Tokens.notFinished
    · rw [if_pos hcond]
      simp only [hm, hcond, if_pos]
      cases hEF : tr.editFail w.editCount with
      | some e =>
        cases e <;> simp [doEdit, hEF, editCount, Op.isEditOp]
      | none =>
        by_cases hb : m < w.messages.length
        · by_cases heq : currentText w m = c <;>
            simp [doEdit, hEF, hb, heq, editCount, Op.isEditOp, finishItem]
        · simp [doEdit, hEF, hb, editCount, Op.isEditOp]
    · rw [if_neg hcond]
      simp [hcond, finishItem, editCount]
  · intro hi0 hmn
    rw [processItem_single_dispatch cfg tr c tok g st w hws hk hlen]
    unfold imgUpd firstSendStep
    simp only [hi0, if_pos]
    simp only [hmn]
    cases hr : (doSend tr w c).2 with
    | none => simp [hr]
    | some id => simp [hr, finishItem]

/-- Two-item stream whose second item is whitespace-only but `Finished`. -/
def streamC3A : List StreamItem :=
  [⟨ContentVal.text (String.toList "hello"), Tokens.notFinished, false⟩,
   ⟨ContentVal.text [' ', ' ', ' '], Tokens.finished 5, false⟩]

/-- Two-item stream whose second item jumps past the chunk boundary
(chunk size 10): neither `Finished` nor above the cadence delta. -/
def streamC3B : List StreamItem :=
  [⟨ContentVal.text (String.toList "abc"), Tokens.notFinished, false⟩,
   ⟨ContentVal.text (String.toList "aaaaaaaaaaaa"), Tokens.notFinished, false⟩]

/-- Counterexample to claim C3 as stated.  First run: the second item carries
`Finished(5)` yet the driver issues no edit at all (whitespace-only content is
skipped before the cadence check, and even its token count is lost).  Second
run: the second item is not `Finished` and its length delta (12 or 2,
depending on reading) is below the threshold 15, yet the driver issues an
edit (the overflow path edits unconditionally).  So "edit iff Finished or
delta above threshold" fails in both directions. -/
theorem c3_cadence_counterexample :
    (editCount (runStream cfgPlain trOk streamC3A).2.1 = 0
      ∧ (streamC3A.getD 1 ⟨ContentVal.text [], Tokens.notFinished, false⟩).tokens
          = Tokens.finished 5)
    ∧ (editCount (runStream cfg10 trOk streamC3B).2.1 = 1
      ∧ ∀ it ∈ streamC3B, it.tokens = Tokens.notFinished) := by
  decide

/-- A 36-character content used by concrete instances. -/
def cLong : List Char := String.toList "this content is long enough to go on"

/-- Concrete instance of the amended C3: at state `stMid` (delta 34 above
threshold 15 + backoff 10) the cadence check fires and exactly one edit is
attempted. -/
theorem c3_cadence_gate_witness :
    editCount (processItem cfgPlain trOk
        ⟨ContentVal.text cLong, Tokens.notFinished, false⟩ stMid wMid).2.2.1 = 1 := by
  have h := (c3_cadence_gate cfgPlain trOk cLong Tokens.notFinished false stMid wMid
    (by decide) (by decide) (by decide)).1 0 (by decide) rfl
  rw [h]
  decide

/-- Claim C5 (amended): when a cadence-gated edit raises
`RetryAfter(retryAfter)`, the loop sleeps `retryAfter` seconds, adds 5 to the
backoff accumulator, and then `continue`s: the failed render is not
re-attempted within this item (the trace of the item ends after the sleep),
`prev` is left pointing at the failed candidate content, and `i` is not
advanced, so the next stream item is consumed next. -/
theorem c5_rate_limit_backoff (cfg : Config) (tr : Transport) (c : List Char)
    (tok : Tokens) (g : Bool) (st : LoopState) (w : World) (m r : Nat)
    (hi : st.i ≠ 0) (hm : st.sentMessage = some m)
    (hws : (stripChars c).length ≠ 0) (hk : 0 < cfg.chunkSize)
    (hlen : c.length ≤ cfg.chunkSize)
    (hcond : get_stream_cutoff_values cfg.isGroup c + st.backoff
        < ((c.length : Int) - (st.prev.length : Int)).natAbs
        ∨ tok ≠ Tokens.notFinished)
    (hEF : tr.editFail w.editCount = some (TransportErr.rateLimited r)) :
    (processItem cfg tr ⟨ContentVal.text c, tok, g⟩ st w).2.2.1 =
      [Op.editMsg m c false, Op.sleep (r * 1000)]
    ∧ (processItem cfg tr ⟨ContentVal.text c, tok, g⟩ st w).1.backoff = st.backoff + 5
    ∧ (processItem cfg tr ⟨ContentVal.text c, tok, g⟩ st w).1.prev = c
    ∧ (processItem cfg tr ⟨ContentVal.text c, tok, g⟩ st w).1.i = st.i
    ∧ (processItem cfg tr ⟨ContentVal.text c, tok, g⟩ st w).2.2.2 = none := by
  rw [processItem_single_dispatch cfg tr c tok g st w hws hk hlen]
  unfold imgUpd cadenceStep
  simp only [hi, if_neg]
  rw [if_pos hcond]
  simp [hm, doEdit, hEF]

/-- Three-item stream: the second item's edit is rate limited. -/
def streamC5 : List StreamItem :=
  [⟨ContentVal.text (String.toList "Hi"), Tokens.notFinished, false⟩,
   ⟨ContentVal.text (String.toList "Hi there, friend. More text now"),
     Tokens.notFinished, false⟩,
   ⟨ContentVal.text (String.toList "Hi there, friend. More text now, done."),
     Tokens.finished 7, false⟩]

/-- Transport whose first edit call raises `RetryAfter(5)`. -/
def trC5 : Transport :=
  { sendFail := fun _ => false,
    editFail := fun n => if n = 0 then some (TransportErr.rateLimited 5) else none,
    deleteFail := fun _ => false }

/-- Counterexample to claim C5 as stated.  The edit of the second item's
content is rate limited; the trace contains the 5-second sleep, but that
content is edited exactly once in the whole run — the same render is never
re-attempted — while the third stream item is consumed and rendered (its
content is edited exactly once too).  So, after the sleep, the loop advances
to the next stream item instead of retrying the failed render. -/
theorem c5_rate_limit_counterexample :
    ((runStream cfgPlain trC5 streamC5).2.1.filter
        (Op.editWithText (String.toList "Hi there, friend. More text now"))).length = 1
    ∧ ((runStream cfgPlain trC5 streamC5).2.1.filter
        (fun o => o = Op.sleep 5000)).length = 1
    ∧ ((runStream cfgPlain trC5 streamC5).2.1.filter
        (Op.editWithText (String.toList "Hi there, friend. More text now, done."))).length
          = 1 := by
  decide

/-- Transport whose third edit call raises `RetryAfter(3)`. -/
def trC5w : Transport :=
  { sendFail := fun _ => false,
    editFail := fun n => if n = 2 then some (TransportErr.rateLimited 3) else none,
    deleteFail := fun _ => false }

/-- Concrete instance of the amended C5 at state `stMid` (whose world has
already seen two edit calls): the rate-limited edit is followed by a
3-second sleep, backoff grows from 10 to 15, `prev` is set to the failed
content, and the item counter stays at 3. -/
theorem c5_rate_limit_backoff_witness :
    (processItem cfgPlain trC5w ⟨ContentVal.text cLong, Tokens.notFinished, false⟩
        stMid wMid).2.2.1 = [Op.editMsg 0 cLong false, Op.sleep 3000]
    ∧ (processItem cfgPlain trC5w ⟨ContentVal.text cLong, Tokens.notFinished, false⟩
        stMid wMid).1.backoff = 15
    ∧ (processItem cfgPlain trC5w ⟨ContentVal.text cLong, Tokens.notFinished, false⟩
        stMid wMid).1.prev = cLong
    ∧ (processItem cfgPlain trC5w ⟨ContentVal.text cLong, Tokens.notFinished, false⟩
        stMid wMid).1.i = 3 := by
  have h := c5_rate_limit_backoff cfgPlain trC5w cLong Tokens.notFinished false stMid
    wMid 0 3 (by decide) rfl (by decide) (by decide) (by decide) (by decide) (by decide)
  exact ⟨h.1, h.2.1, h.2.2.1, h.2.2.2.1⟩

theorem overflowStep_outcome (tr : Transport) (content prevChunk : List Char)
    (st : LoopState) (w : World) :
    (overflowStep tr content prevChunk st w).2.2.2 = none := by
  unfold overflowStep
  cases h : st.sentMessage <;> simp [h]

theorem firstSendStep_outcome (tr : Transport) (item : StreamItem) (content : List Char)
    (st : LoopState) (w : World) :
    (firstSendStep tr item content st w).2.2.2 = none := by
  unfold firstSendStep
  cases h : st.sentMessage with
  | none =>
    simp only [h]
    cases hr : (doSend tr w content).2 <;> simp [hr, finishItem]
  | some m =>
    simp only [h]
    cases hd : (doDelete tr w m).2 with
    | false => simp [hd]
    | true =>
      cases hr : (doSend tr (doDelete tr w m).1 content).2 <;> simp [hd, hr, finishItem]

theorem cadenceStep_outcome (cfg : Config) (tr : Transport) (item : StreamItem)
    (content : List Char) (st : LoopState) (w : World) :
    (cadenceStep cfg tr item content st w).2.2.2 = none := by
  unfold cadenceStep
  split
  · cases h : st.sentMessage with
    | none => simp [h]
    | some m =>
      simp only [h]
      cases he : (doEdit tr w m content).2 with
      | success => simp [he, finishItem]
      | unmodified => simp [he, finishItem]
      | failed e => cases e <;> simp [he]
  · simp [finishItem]

/-- A text item can never terminate the stream early, whatever the transport
does: only a direct result triggers the `return`. -/
theorem processItem_text_outcome (cfg : Config) (tr : Transport) (c : List Char)
    (tok : Tokens) (g : Bool) (st : LoopState) (w : World) :
    (processItem cfg tr ⟨ContentVal.text c, tok, g⟩ st w).2.2.2 = none := by
  unfold processItem
  by_cases hws : (stripChars c).length = 0
  · simp [hws]
  · simp only [hws, if_neg, if_false]
    split
    · exact overflowStep_outcome _ _ _ _ _
    · split
      · exact firstSendStep_outcome _ _ _ _ _
      · exact cadenceStep_outcome _ _ _ _ _ _

/-- Claim C6 (amended): no transport failure ever aborts the stream.  An
intermediate edit failure is absorbed (first conjunct: a text item never
produces an early return, whatever the transport does) — and, contrary to the
claim's second half, a failure to create the very first placeholder message is
not escalated either: the bare `except: continue` swallows it, `i` stays 0 and
`sent_message` stays `None`, so the next item simply re-attempts the initial
send. -/
theorem c6_first_send_not_fatal (cfg : Config) (tr : Transport) (c : List Char)
    (tok : Tokens) (g : Bool) (st : LoopState) (w : World) :
    (processItem cfg tr ⟨ContentVal.text c, tok, g⟩ st w).2.2.2 = none
    ∧ (st.i = 0 → st.sentMessage = none → (stripChars c).length ≠ 0 →
       0 < cfg.chunkSize → c.length ≤ cfg.chunkSize →
       tr.sendFail w.sendCount = true →
       (processItem cfg tr ⟨ContentVal.text c, tok, g⟩ st w).2.2.1 = [Op.sendMsg c false]
       ∧ (processItem cfg tr ⟨ContentVal.text c, tok, g⟩ st w).1.i = 0
       ∧ (processItem cfg tr ⟨ContentVal.text c, tok, g⟩ st w).1.sentMessage = none) := by
  constructor
  · exact processItem_text_outcome cfg tr c tok g st w
  · intro hi0 hmn hws hk hlen hSF
    rw [processItem_single_dispatch cfg tr c tok g st w hws hk hlen]
    unfold imgUpd firstSendStep
    simp [hi0, hmn, doSend, hSF]

/-- Two-item stream whose very first placeholder send fails. -/
def streamC6 : List StreamItem :=
  [⟨ContentVal.text (String.toList "Hello friend"), Tokens.notFinished, false⟩,
   ⟨ContentVal.text (String.toList "Hello friend again"), Tokens.finished 4, false⟩]

/-- Transport whose first send call fails. -/
def trC6 : Transport :=
  { sendFail := fun n => n == 0, editFail := fun _ => none, deleteFail := fun _ => false }

/-- Counterexample to claim C6 as stated: the creation of the very first
placeholder message fails, yet the stream is not aborted and no plain failure
message is sent — the loop silently skips the item, the second item performs
the initial send successfully, and the run completes normally with its usage
report. -/
theorem c6_first_send_counterexample :
    (runStream cfgPlain trC6 streamC6).2.2 = Outcome.rendered 4
    ∧ (runStream cfgPlain trC6 streamC6).2.1 =
        [Op.sendMsg (String.toList "Hello friend") false,
         Op.sendMsg (String.toList "Hello friend again") true,
         Op.report ['u'] 4] := by
  decide

/-- Concrete instance of the amended C6: a failed first send produces exactly
one failed send op, no early return, and leaves `i = 0` and no message. -/
theorem c6_first_send_not_fatal_witness :
    (processItem cfgPlain trC6
        ⟨ContentVal.text (String.toList "Hello friend"), Tokens.notFinished, false⟩
        initialState initialWorld).2.2.2 = none
    ∧ (processItem cfgPlain trC6
        ⟨ContentVal.text (String.toList "Hello friend"), Tokens.notFinished, false⟩
        initialState initialWorld).2.2.1 = [Op.sendMsg (String.toList "Hello friend") false]
    ∧ (processItem cfgPlain trC6
        ⟨ContentVal.text (String.toList "Hello friend"), Tokens.notFinished, false⟩
        initialState initialWorld).1.i = 0
    ∧ (processItem cfgPlain trC6
        ⟨ContentVal.text (String.toList "Hello friend"), Tokens.notFinished, false⟩
        initialState initialWorld).1.sentMessage = none := by
  have h := c6_first_send_not_fatal cfgPlain trC6 (String.toList "Hello friend")
    Tokens.notFinished false initialState initialWorld
  have hb := h.2 rfl rfl (by decide) (by decide) (by decide) rfl
  exact ⟨h.1, hb.1, hb.2.1, hb.2.2⟩

theorem overflowStep_noReport (tr : Transport) (content prevChunk : List Char)
    (st : LoopState) (w : World) :
    reportOps (overflowStep tr content prevChunk st w).2.2.1 = [] := by
  unfold overflowStep
  cases h : st.sentMessage <;> simp [h, reportOps, Op.isReportOp]

theorem firstSendStep_noReport (tr : Transport) (item : StreamItem) (content : List Char)
    (st : LoopState) (w : World) :
    reportOps (firstSendStep tr item content st w).2.2.1 = [] := by
  unfold firstSendStep
  cases h : st.sentMessage with
  | none =>
    cases hr : (doSend tr w content).2 <;>
      simp [h, hr, finishItem, reportOps, Op.isReportOp]
  | some m =>
    cases hd : (doDelete tr w m).2 with
    | false => simp [h, hd, reportOps, Op.isReportOp]
    | true =>
      cases hr : (doSend tr (doDelete tr w m).1 content).2 <;>
        simp [h, hd, hr, finishItem, reportOps, Op.isReportOp]

theorem cadenceStep_noReport (cfg : Config) (tr : Transport) (item : StreamItem)
    (content : List Char) (st : LoopState) (w : World) :
    reportOps (cadenceStep cfg tr item content st w).2.2.1 = [] := by
  unfold cadenceStep
  split
  · cases h : st.sentMessage with
    | none => simp [h, reportOps, Op.isReportOp]
    | some m =>
      cases he : (doEdit tr w m content).2 with
      | success => simp [h, he, finishItem, reportOps, Op.isReportOp]
      | unmodified => simp [h, he, finishItem, reportOps, Op.isReportOp]
      | failed e => cases e <;> simp [h, he, reportOps, Op.isReportOp]
  · simp [finishItem, reportOps]

/-- A text item never reports usage: the tracker is only invoked after the
loop. -/
theorem processItem_text_noReport (cfg : Config) (tr : Transport) (c : List Char)
    (tok : Tokens) (g : Bool) (st : LoopState) (w : World) :
    reportOps (processItem cfg tr ⟨ContentVal.text c, tok, g⟩ st w).2.2.1 = [] := by
  unfold processItem
  by_cases hws : (stripChars c).length = 0
  · simp [hws, reportOps]
  · simp only [hws, if_neg, if_false]
    split
    · exact overflowStep_noReport _ _ _ _ _
    · split
      · exact firstSendStep_noReport _ _ _ _ _
      · exact cadenceStep_noReport _ _ _ _ _ _

theorem runItems_text_all (cfg : Config) (tr : Transport) :
    ∀ (items : List StreamItem) (st : LoopState) (w : World),
      (∀ it ∈ items, ∃ s, it.content = ContentVal.text s) →
      (runItems cfg tr items st w).2.2.2 = none
      ∧ reportOps (runItems cfg tr items st w).2.2.1 = [] := by
  intro items
  induction items with
  | nil =>
    intro st w h
    simp [runItems, reportOps]
  | cons item rest ih =>
    intro st w h
    obtain ⟨s, hs⟩ := h item (List.mem_cons_self item rest)
    rcases item with ⟨cv, tk, gi⟩
    simp only [StreamItem.content] at hs
    subst hs
    have hout := processItem_text_outcome cfg tr s tk gi st w
    have hrep := processItem_text_noReport cfg tr s tk gi st w
    have htail : ∀ it ∈ rest, ∃ s, it.content = ContentVal.text s := by
      intro it hit
      exact h it (List.mem_cons_of_mem _ hit)
    unfold runItems
    rcases hP : processItem cfg tr ⟨ContentVal.text s, tk, gi⟩ st w with ⟨st1, w1, ops1, out⟩
    rw [hP] at hout hrep
    simp only at hout
    subst hout
    obtain ⟨ih1, ih2⟩ := ih st1 w1 htail
    simp only at hrep
    simp only [reportOps, List.filter_append] at ih2 ⊢
    simp [reportOps] at hrep
    simp [hrep, ih1, ih2]
    exact hrep

theorem reportOps_map_report (l : List (List Char × Nat)) :
    reportOps (l.map (fun r => Op.report r.1 r.2)) = l.map (fun r => Op.report r.1 r.2) := by
  unfold reportOps
  apply List.filter_eq_self.mpr
  intro a ha
  obtain ⟨r, hr, hEq⟩ := List.mem_map.mp ha
  rw [← hEq]
  rfl

theorem add_chat_request_eq_nil_iff (a : List (List Char)) (g : Bool) (u : List Char)
    (t : Nat) : add_chat_request_to_usage_tracker a g u t = [] ↔ t = 0 := by
  unfold add_chat_request_to_usage_tracker
  split_ifs <;> simp_all

/-- Claim C8 (amended): a stream of text items always completes normally, and
the driver invokes the usage tracker exactly once, at the end, with the final
token total: the trace's report operations are exactly those of one
`add_chat_request_to_usage_tracker` call (one report for the requesting user,
plus one to the shared guests ledger when the user is not allow-listed and a
guest tracker exists), and reports are skipped if and only if the total is
zero. -/
theorem c8_usage_report (cfg : Config) (tr : Transport) (items : List StreamItem)
    (h : ∀ it ∈ items, ∃ s, it.content = ContentVal.text s) :
    ∃ t, (runStream cfg tr items).2.2 = Outcome.rendered t
    ∧ reportOps (runStream cfg tr items).2.1 =
        (add_chat_request_to_usage_tracker cfg.allowedUserIds cfg.guestsExists
          cfg.userId t).map (fun r => Op.report r.1 r.2)
    ∧ (reportOps (runStream cfg tr items).2.1 = [] ↔ t = 0) := by
  obtain ⟨hout, hrep⟩ := runItems_text_all cfg tr items initialState initialWorld h
  unfold runStream
  rcases hR : runItems cfg tr items initialState initialWorld with ⟨st, w, ops, out⟩
  rw [hR] at hout hrep
  simp only at hout
  subst hout
  simp only at hrep
  simp only [reportOps] at hrep
  refine ⟨st.totalTokens, rfl, ?_, ?_⟩
  · simp only [reportOps, List.filter_append, hrep, List.nil_append]
    exact reportOps_map_report _
  · simp only [reportOps, List.filter_append, hrep, List.nil_append]
    rw [show List.filter Op.isReportOp ((add_chat_request_to_usage_tracker
        cfg.allowedUserIds cfg.guestsExists cfg.userId st.totalTokens).map
          (fun r => Op.report r.1 r.2)) = (add_chat_request_to_usage_tracker
        cfg.allowedUserIds cfg.guestsExists cfg.userId st.totalTokens).map
          (fun r => Op.report r.1 r.2) from reportOps_map_report _]
    rw [List.map_eq_nil_iff]
    exact add_chat_request_eq_nil_iff _ _ _ _

/-- Configuration whose requesting user `"42"` is not in the allow list while
a guests tracker exists. -/
def cfgC8 : Config :=
  { chunkSize := 4096, isGroup := false, allowedUserIds := [String.toList "111"],
    guestsExists := true, userId := String.toList "42" }

/-- Single-item stream finishing with 9 tokens. -/
def streamC8 : List StreamItem :=
  [⟨ContentVal.text (String.toList "The answer is fortytwo, obviously."),
    Tokens.finished 9, false⟩]

/-- Counterexample to claim C8 as stated: a normally-completing stream by a
non-allow-listed user with a guests tracker emits two usage reports (one for
the user, one for the shared guests ledger), not exactly one. -/
theorem c8_usage_report_counterexample :
    (reportOps (runStream cfgC8 trOk streamC8).2.1).length = 2
    ∧ (runStream cfgC8 trOk streamC8).2.2 = Outcome.rendered 9 := by
  decide

/-- Concrete instance of the amended C8 at the guest configuration. -/
theorem c8_usage_report_witness :
    ∃ t, (runStream cfgC8 trOk streamC8).2.2 = Outcome.rendered t
    ∧ reportOps (runStream cfgC8 trOk streamC8).2.1 =
        (add_chat_request_to_usage_tracker cfgC8.allowedUserIds cfgC8.guestsExists
          cfgC8.userId t).map (fun r => Op.report r.1 r.2)
    ∧ (reportOps (runStream cfgC8 trOk streamC8).2.1 = [] ↔ t = 0) :=
  c8_usage_report cfgC8 trOk streamC8 (by
    intro it hit
    simp only [streamC8, List.mem_singleton] at hit
    subst hit
    exact ⟨_, rfl⟩)

theorem getD_append_length (l : List (List Char)) (a : List Char) :
    (l ++ [a]).getD l.length [] = a := by
  rw [List.getD_append_right l [a] [] l.length (Nat.le_refl _)]
  simp

theorem getD_set_self (l : List (List Char)) (m : Nat) (a : List Char)
    (h : m < l.length) : (l.set m a).getD m [] = a := by
  rw [List.getD_eq_getElem (l.set m a) [] (by simpa using h)]
  simp [List.getElem_set]

theorem doSend_some (tr : Transport) (w : World) (text : List Char) (id : Nat)
    (h : (doSend tr w text).2 = some id) :
    (doSend tr w text).1.messages = w.messages ++ [text] ∧ id = w.messages.length := by
  unfold doSend at h ⊢
  by_cases hs : tr.sendFail w.sendCount
  · simp [hs] at h
  · simp [hs] at h ⊢
    omega

theorem modifyingEditCount_append (l1 l2 : List Op) :
    modifyingEditCount (l1 ++ l2) = modifyingEditCount l1 + modifyingEditCount l2 := by
  simp [modifyingEditCount, List.filter_append]

/-- The initial-send branch never edits; it either leaves the state exactly as
it was (some call failed, `continue`) or installs a fresh message holding the
sent content and advances `i`. -/
theorem firstSendStep_spec (tr : Transport) (item : StreamItem) (content : List Char)
    (st : LoopState) (w : World) :
    modifyingEditCount (firstSendStep tr item content st w).2.2.1 = 0
    ∧ ((firstSendStep tr item content st w).1 = st
       ∨ ∃ id, (firstSendStep tr item content st w).1
            = updTokens item { st with sentMessage := some id, i := st.i + 1 }
          ∧ currentText (firstSendStep tr item content st w).2.1 id = content) := by
  unfold firstSendStep
  cases h : st.sentMessage with
  | none =>
    cases hr : (doSend tr w content).2 with
    | none => simp [h, hr, modifyingEditCount, Op.isModifyingEdit]
    | some id =>
      obtain ⟨hmsg, hid⟩ := doSend_some tr w content id hr
      constructor
      · simp [h, hr, finishItem, modifyingEditCount, Op.isModifyingEdit]
      · right
        refine ⟨id, ?_, ?_⟩
        · simp [h, hr, finishItem]
        · simp only [h, hr, finishItem]
          simp only [currentText, hmsg, hid]
          exact getD_append_length w.messages content
  | some m =>
    cases hd : (doDelete tr w m).2 with
    | false => simp [h, hd, modifyingEditCount, Op.isModifyingEdit]
    | true =>
      cases hr : (doSend tr (doDelete tr w m).1 content).2 with
      | none => simp [h, hd, hr, modifyingEditCount, Op.isModifyingEdit]
      | some id =>
        obtain ⟨hmsg, hid⟩ := doSend_some tr (doDelete tr w m).1 content id hr
        constructor
        · simp [h, hd, hr, finishItem, modifyingEditCount, Op.isModifyingEdit]
        · right
          refine ⟨id, ?_, ?_⟩
          · simp [h, hd, hr, finishItem]
          · simp only [h, hd, hr, if_true, finishItem]
            simp only [currentText, hmsg, hid]
            exact getD_append_length (doDelete tr w m).1.messages content

/-- The cadence branch issues at most one edit per item. -/
theorem cadenceStep_le_one (cfg : Config) (tr : Transport) (item : StreamItem)
    (content : List Char) (st : LoopState) (w : World) :
    modifyingEditCount (cadenceStep cfg tr item content st w).2.2.1 ≤ 1 := by
  unfold cadenceStep
  split
  · cases h : st.sentMessage with
    | none => simp [h, modifyingEditCount]
    | some m =>
      cases he : (doEdit tr w m content).2 with
      | success => simp [h, he, finishItem, modifyingEditCount, Op.isModifyingEdit]
      | unmodified => simp [h, he, finishItem, modifyingEditCount, Op.isModifyingEdit]
      | failed e => cases e <;> simp [h, he, modifyingEditCount, Op.isModifyingEdit]
  · simp [finishItem, modifyingEditCount]

/-- When the open message already shows exactly the candidate content, the
cadence branch never performs a modifying edit: a rendered edit comes back
`Unmodified` (Telegram's "Message is not modified") and is absorbed. -/
theorem cadenceStep_noModifying_of_current (cfg : Config) (tr : Transport)
    (item : StreamItem) (content : List Char) (st : LoopState) (w : World) (m : Nat)
    (hm : st.sentMessage = some m) (hmsg : currentText w m = content) :
    modifyingEditCount (cadenceStep cfg tr item content st w).2.2.1 = 0 := by
  unfold cadenceStep
  split
  · simp only [hm]
    cases hEF : tr.editFail w.editCount with
    | some e => cases e <;> simp [doEdit, hEF, modifyingEditCount, Op.isModifyingEdit]
    | none =>
      by_cases hb : m < w.messages.length
      · simp [doEdit, hEF, hb, hmsg, finishItem, modifyingEditCount, Op.isModifyingEdit]
      · simp [doEdit, hEF, hb, modifyingEditCount, Op.isModifyingEdit]
  · simp [finishItem, modifyingEditCount]

/-- If the cadence branch did perform a modifying edit, then the stream's open
message now shows exactly the candidate content, the message reference is
unchanged and `i` was advanced. -/
theorem cadenceStep_modifying_spec (cfg : Config) (tr : Transport) (item : StreamItem)
    (content : List Char) (st : LoopState) (w : World)
    (h : modifyingEditCount (cadenceStep cfg tr item content st w).2.2.1 ≠ 0) :
    ∃ m, st.sentMessage = some m
    ∧ (cadenceStep cfg tr item content st w).1.sentMessage = some m
    ∧ (cadenceStep cfg tr item content st w).1.i = st.i + 1
    ∧ currentText (cadenceStep cfg tr item content st w).2.1 m = content := by
  unfold cadenceStep at h ⊢
  by_cases hcond : get_stream_cutoff_values cfg.isGroup content + st.backoff
      < ((content.length : Int) - (st.prev.length : Int)).natAbs
      ∨ item.tokens ≠ Tokens.notFinished
  · rw [if_pos hcond] at h ⊢
    cases hm : st.sentMessage with
    | none =>
      simp only [hm] at h
      simp [modifyingEditCount] at h
    | some m =>
      simp only [hm] at h ⊢
      refine ⟨m, rfl, ?_⟩
      cases hEF : tr.editFail w.editCount with
      | some e =>
        exfalso
        cases e <;> simp [doEdit, hEF, modifyingEditCount, Op.isModifyingEdit] at h
      | none =>
        by_cases hb : m < w.messages.length
        · by_cases heq : currentText w m = content
          · exfalso
            simp [doEdit, hEF, hb, heq, finishItem, modifyingEditCount,
              Op.isModifyingEdit] at h
          · simp only [doEdit, hEF, hb, heq, if_neg, if_true, if_false, finishItem]
            refine ⟨?_, ?_, ?_⟩
            · rw [updTokens_sentMessage]
            · rw [updTokens_i]
            · simp only [currentText]
              exact getD_set_self w.messages m content hb
        · exfalso
          simp [doEdit, hEF, hb, modifyingEditCount, Op.isModifyingEdit] at h
  · rw [if_neg hcond] at h
    exfalso
    simp [finishItem, modifyingEditCount] at h

/-- The cadence branch never resets `i` to zero. -/
theorem cadenceStep_i_ne_zero (cfg : Config) (tr : Transport) (item : StreamItem)
    (content : List Char) (st : LoopState) (w : World) (h : st.i ≠ 0) :
    (cadenceStep cfg tr item content st w).1.i ≠ 0 := by
  unfold cadenceStep
  split
  · cases hm : st.sentMessage with
    | none =>
      simp only [hm]
      exact h
    | some m =>
      cases he : (doEdit tr w m content).2 with
      | success =>
        simp only [hm, he, finishItem]
        rw [updTokens_i]
        simp
      | unmodified =>
        simp only [hm, he, finishItem]
        rw [updTokens_i]
        simp
      | failed e =>
        cases e <;> simp [hm, he] <;> exact h
  · simp only [finishItem]
    rw [updTokens_i]
    simp

theorem imgUpd_sentMessage (g : Bool) (st : LoopState) :
    (imgUpd g st).sentMessage = st.sentMessage := rfl

theorem imgUpd_i (g : Bool) (st : LoopState) : (imgUpd g st).i = st.i := rfl

/-- Claim C9 (amended): for two consecutive stream items with identical
non-whitespace content that fits within a single chunk, rendering both
produces at most one modifying transport edit: the second render is either
skipped by the cadence check or comes back `Unmodified` and is absorbed. -/
theorem c9_idempotent_render (cfg : Config) (tr : Transport) (st : LoopState)
    (w : World) (c : List Char) (t1 t2 : Tokens) (g1 g2 : Bool)
    (hws : (stripChars c).length ≠ 0) (hk : 0 < cfg.chunkSize)
    (hlen : c.length ≤ cfg.chunkSize) :
    modifyingEditCount
      ((processItem cfg tr ⟨ContentVal.text c, t1, g1⟩ st w).2.2.1
        ++ (processItem cfg tr ⟨ContentVal.text c, t2, g2⟩
              (processItem cfg tr ⟨ContentVal.text c, t1, g1⟩ st w).1
              (processItem cfg tr ⟨ContentVal.text c, t1, g1⟩ st w).2.1).2.2.1) ≤ 1 := by
  rw [modifyingEditCount_append]
  rw [processItem_single_dispatch cfg tr c t1 g1 st w hws hk hlen]
  by_cases hi : st.i = 0
  · rw [if_pos hi]
    obtain ⟨hmc1, hcase⟩ :=
      firstSendStep_spec tr ⟨ContentVal.text c, t1, g1⟩ c (imgUpd g1 st) w
    rw [hmc1]
    rcases hcase with hsame | ⟨id, hst1, hcur⟩
    · rw [hsame]
      rw [processItem_single_dispatch cfg tr c t2 g2 _ _ hws hk hlen]
      have hi1 : (imgUpd g1 st).i = 0 := hi
      rw [if_pos hi1]
      have hmc2 := (firstSendStep_spec tr ⟨ContentVal.text c, t2, g2⟩ c
        (imgUpd g2 (imgUpd g1 st))
        (firstSendStep tr ⟨ContentVal.text c, t1, g1⟩ c (imgUpd g1 st) w).2.1).1
      omega
    · rw [processItem_single_dispatch cfg tr c t2 g2 _ _ hws hk hlen]
      have hi2 : (firstSendStep tr ⟨ContentVal.text c, t1, g1⟩ c
          (imgUpd g1 st) w).1.i ≠ 0 := by
        rw [hst1, updTokens_i]
        simp
      rw [if_neg hi2]
      have hm2 : (imgUpd g2 (firstSendStep tr ⟨ContentVal.text c, t1, g1⟩ c
          (imgUpd g1 st) w).1).sentMessage = some id := by
        rw [imgUpd_sentMessage, hst1, updTokens_sentMessage]
      have h0 := cadenceStep_noModifying_of_current cfg tr ⟨ContentVal.text c, t2, g2⟩ c
        (imgUpd g2 (firstSendStep tr ⟨ContentVal.text c, t1, g1⟩ c (imgUpd g1 st) w).1)
        (firstSendStep tr ⟨ContentVal.text c, t1, g1⟩ c (imgUpd g1 st) w).2.1
        id hm2 hcur
      omega
  · rw [if_neg hi]
    have hb1 := cadenceStep_le_one cfg tr ⟨ContentVal.text c, t1, g1⟩ c (imgUpd g1 st) w
    by_cases hmc1 : modifyingEditCount
        (cadenceStep cfg tr ⟨ContentVal.text c, t1, g1⟩ c (imgUpd g1 st) w).2.2.1 = 0
    · rw [hmc1]
      rw [processItem_single_dispatch cfg tr c t2 g2 _ _ hws hk hlen]
      by_cases hi2 : (cadenceStep cfg tr ⟨ContentVal.text c, t1, g1⟩ c
          (imgUpd g1 st) w).1.i = 0
      · rw [if_pos hi2]
        have hmc2 := (firstSendStep_spec tr ⟨ContentVal.text c, t2, g2⟩ c
          (imgUpd g2 (cadenceStep cfg tr ⟨ContentVal.text c, t1, g1⟩ c (imgUpd g1 st) w).1)
          (cadenceStep cfg tr ⟨ContentVal.text c, t1, g1⟩ c (imgUpd g1 st) w).2.1).1
        omega
      · rw [if_neg hi2]
        have hmc2 := cadenceStep_le_one cfg tr ⟨ContentVal.text c, t2, g2⟩ c
          (imgUpd g2 (cadenceStep cfg tr ⟨ContentVal.text c, t1, g1⟩ c (imgUpd g1 st) w).1)
          (cadenceStep cfg tr ⟨ContentVal.text c, t1, g1⟩ c (imgUpd g1 st) w).2.1
        omega
    · obtain ⟨m, hm, hm1, hi1, hcur⟩ := cadenceStep_modifying_spec cfg tr
        ⟨ContentVal.text c, t1, g1⟩ c (imgUpd g1 st) w hmc1
      rw [processItem_single_dispatch cfg tr c t2 g2 _ _ hws hk hlen]
      have hi2 : (cadenceStep cfg tr ⟨ContentVal.text c, t1, g1⟩ c
          (imgUpd g1 st) w).1.i ≠ 0 := by
        rw [hi1]
        simp
      rw [if_neg hi2]
      have hm2 : (imgUpd g2 (cadenceStep cfg tr ⟨ContentVal.text c, t1, g1⟩ c
          (imgUpd g1 st) w).1).sentMessage = some m := by
        rw [imgUpd_sentMessage]
        exact hm1
      have h0 := cadenceStep_noModifying_of_current cfg tr ⟨ContentVal.text c, t2, g2⟩ c
        (imgUpd g2 (cadenceStep cfg tr ⟨ContentVal.text c, t1, g1⟩ c (imgUpd g1 st) w).1)
        (cadenceStep cfg tr ⟨ContentVal.text c, t1, g1⟩ c (imgUpd g1 st) w).2.1
        m hm2 hcur
      omega

/-- Three-item stream (chunk size 10) whose last two items are identical and
jump from one chunk straight to three chunks. -/
def streamC9 : List StreamItem :=
  [⟨ContentVal.text (String.toList "hello"), Tokens.notFinished, false⟩,
   ⟨ContentVal.text (String.toList "aaaaaaaaaabbbbbbbbbbcc"), Tokens.notFinished, false⟩,
   ⟨ContentVal.text (String.toList "aaaaaaaaaabbbbbbbbbbcc"), Tokens.notFinished, false⟩]

/-- Counterexample to claim C9 as stated: the second and third stream items
are identical, yet rendering them produces two modifying transport edits (one
per item, on different messages): each takes the overflow path, which edits
`stream_chunks[-2]` unconditionally into the currently open message and opens
a new one, and the second edit is neither skipped by cadence nor absorbed as
`Unmodified`. -/
theorem c9_idempotent_counterexample :
    streamC9.getD 1 ⟨ContentVal.text [], Tokens.notFinished, false⟩
      = streamC9.getD 2 ⟨ContentVal.text [], Tokens.notFinished, false⟩
    ∧ (runStream cfg10 trOk streamC9).2.1 =
        [Op.sendMsg (String.toList "hello") true,
         Op.editMsg 0 (String.toList "bbbbbbbbbb") true,
         Op.sendMsg (String.toList "cc") true,
         Op.editMsg 1 (String.toList "bbbbbbbbbb") true,
         Op.sendMsg (String.toList "cc") true]
    ∧ modifyingEditCount (runStream cfg10 trOk streamC9).2.1 = 2 := by
  decide

/-- Concrete instance of the amended C9: two consecutive identical 36-char
items at state `stMid`, the first edited (modifying), the second absorbed. -/
theorem c9_idempotent_render_witness :
    modifyingEditCount
      ((processItem cfgPlain trOk
          ⟨ContentVal.text cLong, Tokens.notFinished, false⟩ stMid wMid).2.2.1
        ++ (processItem cfgPlain trOk ⟨ContentVal.text cLong, Tokens.finished 3, true⟩
              (processItem cfgPlain trOk
                ⟨ContentVal.text cLong, Tokens.notFinished, false⟩ stMid wMid).1
              (processItem cfgPlain trOk
                ⟨ContentVal.text cLong, Tokens.notFinished, false⟩ stMid wMid).2.1).2.2.1)
      ≤ 1 :=
  c9_idempotent_render cfgPlain trOk stMid wMid cLong Tokens.notFinished
    (Tokens.finished 3) false true (by decide) (by decide) (by decide)
